import Mathlib

/-!
Verification development for the `Topology` testbed creator
(`src/pyats/contrib/creators/topology.py`).

The Python source is shallowly embedded below.  Conventions used throughout:

* Python dictionaries are modelled as association lists (`List (key × value)`),
  preserving insertion order, which is the iteration order of Python dicts.
* Python sets are modelled as duplicate-free lists; the iteration order of a
  Python set is arbitrary, the list order instantiates that nondeterminism.
* Python `None` becomes `Option.none`; fallible operations (`KeyError`,
  `IndexError`, `NameError`, `TypeError`) return `Except String` or `Option`.
* The external collaborators (genie testbed object model, `ipaddress`,
  device I/O) are modelled by the data the core code reads and writes:
  network-exclusion tests become predicates `String → Bool`, neighbor
  fetching becomes an oracle function, and the genie `Link`/`Interface`
  aliasing follows the documented object model (an interface holds a
  back-reference to its link, a link holds the list of member interfaces,
  and connecting an interface to a link sets the back-reference).
* Python `\w` in the two regular expressions is modelled over ASCII word
  characters; the claims under study are insensitive to this choice.
-/

/-! ## String utilities -/

/-- Python substring test: `listInfix needle hay` decides whether `needle`
occurs contiguously inside `hay`. -/
def listInfix (needle : List Char) : List Char → Bool
  | [] => needle.isEmpty
  | c :: cs => needle.isPrefixOf (c :: cs) || listInfix needle cs

/-- Python `needle in hay` on strings (contiguous substring). -/
def strContains (hay needle : String) : Bool :=
  listInfix needle.toList hay.toList

/-! ## OS classifier: `Topology.get_os` -/

/-- Embedding of `Topology.get_os`.  The Python function returns a string or
falls off the end (implicit `None`). -/
def get_os (system_string platform_name : String) : Option String :=
  if strContains system_string "IOS" || strContains platform_name "IOS" then
    if strContains system_string "XE" || strContains platform_name "XE" then
      some "iosxe"
    else if strContains system_string "XR" || strContains platform_name "XR" then
      some "iosxr"
    else
      some "ios"
  else if strContains system_string "NX-OS" || strContains platform_name "NX-OS" then
    some "nxos"
  else
    none

/-! ## Name normalizer

The domain filter regular expression in `_process_cdp_information` and
`_process_lldp_information` is `^.*?(?P<hostname>[-\w]+)\s?`: a lazy prefix of
non-newline characters, then a greedy nonempty run of word characters and
hyphens, then an optional whitespace character.  A match therefore exists
exactly when a word-or-hyphen character occurs before any newline, and the
captured group is the maximal such run starting at the first one. -/

/-- Character class `[-\w]` of the domain filter (ASCII model of `\w`). -/
def isHostChar (c : Char) : Bool :=
  c.isAlphanum || c = '_' || c = '-'

/-- Search for the first `[-\w]` character; every character skipped over is
consumed by the lazy `.*?` and hence must not be a newline.  Returns the
maximal `[-\w]` run starting there (the `hostname` capture group). -/
def findHostname : List Char → Option (List Char)
  | [] => none
  | c :: cs =>
    if isHostChar c then some ((c :: cs).takeWhile isHostChar)
    else if c = '\n' then none
    else findHostname cs

/-- Embedding of the name-normalization step: apply the domain filter and
replace the raw name with the `hostname` group on a match, otherwise keep the
raw name unchanged (`if filtered_name:` guard in the source). -/
def normalizeName (x : String) : String :=
  match findHostname x.toList with
  | some run => String.mk run
  | none => x

/-! ## Interface type derivation

The interface filter regular expression `.+?(?=\d)` takes the shortest
nonempty prefix of non-newline characters that is followed by a digit. -/

/-- Worker for `ifaceType`: `acc` is the reversed consumed prefix. -/
def ifaceTypeGo (acc : List Char) : List Char → Option (List Char)
  | [] => none
  | c :: cs =>
    if !acc.isEmpty && c.isDigit then some acc.reverse
    else if c = '\n' then none
    else ifaceTypeGo (c :: acc) cs

/-- Embedding of `interface_filter.match(interface)` followed by
`[0].lower()`: `none` models a failed match (where the Python code would
raise a `TypeError` on the subscript). -/
def ifaceType (s : String) : Option String :=
  (ifaceTypeGo [] s.toList).map (fun l => String.mk (l.map Char.toLower))

/-! ## LLDP management-address selection (`_process_lldp_information`)

Lines 398-400 of the source:
`ip_address = neighbor.get('management_address')` and, only when that is
`None`, `ip_address = neighbor.get('management_address_v4')`. -/

/-- Fields of one LLDP neighbor record that the code reads. -/
structure LldpNeighbor where
  management_address : Option String
  management_address_v4 : Option String
  system_description : String
deriving DecidableEq

/-- Embedding of the address selection used for the excluded-network check in
the LLDP branch. -/
def lldp_pick_address (n : LldpNeighbor) : Option String :=
  match n.management_address with
  | some ip => some ip
  | none => n.management_address_v4

/-! ## Interface exclusion check

In the source, `self._exclude_interfaces` is the raw command-line string (it
is never split), and both `interface in self._exclude_interfaces` and
`dest_port in self._exclude_interfaces` are Python substring tests. -/

/-- Embedding of the pair of skip tests on lines 309-318 (CDP) and 385-394
(LLDP): the entry is skipped when either interface name occurs as a substring
of the configured `exclude_interfaces` string. -/
def interface_excluded (exclude_interfaces intf dest_port : String) : Bool :=
  strContains exclude_interfaces intf || strContains exclude_interfaces dest_port

/-- Worker for `excludeInterfaceWords`: split on spaces, dropping empty
fragments; `cur` holds the reversed current word. -/
def splitWordsGo (cur : List Char) : List Char → List String
  | [] => if cur.isEmpty then [] else [String.mk cur.reverse]
  | c :: cs =>
    if c = ' ' then
      (if cur.isEmpty then [] else [String.mk cur.reverse]) ++ splitWordsGo [] cs
    else
      splitWordsGo (c :: cur) cs

/-- Configured interface set as the specification reads it: the space-
separated words of the `exclude_interfaces` argument. -/
def excludeInterfaceWords (exclude_interfaces : String) : List String :=
  splitWordsGo [] exclude_interfaces.toList

/-! ## Final output merge (`create_yaml_dict`, lines 586-598)

The loaded configuration and the freshly built dictionaries are modelled as
association lists; device entry values and interface entry values are opaque
type parameters since the merge never inspects them.  The per-device
`interfaces` wrapper dictionary is flattened into the entry value. -/

/-- Association-list lookup, first match wins (Python dict lookup). -/
def alLookup {κ β : Type} [DecidableEq κ] : List (κ × β) → κ → Option β
  | [], _ => none
  | e :: es, k => if e.1 = k then some e.2 else alLookup es k

/-- Association-list value replacement at a key, preserving entry order
(Python `d[k] = v` for a key already present). -/
def alSet {κ β : Type} [DecidableEq κ] (l : List (κ × β)) (k : κ) (v : β) :
    List (κ × β) :=
  l.map (fun e => if e.1 = k then (k, v) else e)

/-- Value rewriting performed by Python `old.update(new)` at key `k`. -/
def updVal {β : Type} (new : List (String × β)) (k : String) (v : β) : β :=
  match alLookup new k with
  | some w => w
  | none => v

/-- Python `old.update(new)`: keys already present keep their position but
receive the value from `new`; keys only in `new` are appended in order. -/
def dictUpdate {β : Type} (old new : List (String × β)) : List (String × β) :=
  old.map (fun e => (e.1, updVal new e.1 e.2)) ++
    new.filter (fun e => (alLookup old e.1).isNone)

/-- Merge of the per-device topology entries: a device present in both has
its interface dictionary updated in place; a device only in the new data is
appended; a device only in the input is untouched. -/
def topoMergeVal {β : Type} (new : List (String × List (String × β)))
    (k : String) (ifs : List (String × β)) : List (String × β) :=
  match alLookup new k with
  | some nifs => dictUpdate ifs nifs
  | none => ifs

/-- Topology part of the merge (lines 593-598). -/
def mergeTopology {β : Type} (old new : List (String × List (String × β))) :
    List (String × List (String × β)) :=
  old.map (fun e => (e.1, topoMergeVal new e.1 e.2)) ++
    new.filter (fun e => (alLookup old e.1).isNone)

/-- Device part of the merge (lines 588-590): only absent devices are added. -/
def mergeDevices {α : Type} (old new : List (String × α)) : List (String × α) :=
  old ++ new.filter (fun e => (alLookup old e.1).isNone)

/-- Loaded configuration shape: a devices dictionary and an optional topology
dictionary (`testbed_yaml.get('topology')` may be `None`). -/
structure YamlConfig (α β : Type) where
  devices : List (String × α)
  topology : Option (List (String × List (String × β)))

/-- Embedding of the combination step of `create_yaml_dict` (lines 586-598):
merge the freshly built device and topology dictionaries into the loaded
configuration. -/
def create_yaml_merge {α β : Type} (input : YamlConfig α β)
    (newDevices : List (String × α))
    (newTopology : List (String × List (String × β))) : YamlConfig α β :=
  { devices := mergeDevices input.devices newDevices,
    topology :=
      match input.topology with
      | none => some newTopology
      | some topo => some (mergeTopology topo newTopology) }

/-- Concrete input configuration for the C8 analysis. -/
def c8Input : YamlConfig Nat Nat :=
  { devices := [("devA", 1)], topology := some [("devA", [("eth0", 1)])] }

/-- Concrete freshly built topology for the C8 analysis: the same device and
interface with a different entry value. -/
def c8NewTopo : List (String × List (String × Nat)) := [("devA", [("eth0", 2)])]

/-! ## Discovery loop (`_generate`, lines 142-168, and
`process_neigbor_data`, lines 199-204)

Devices and the visited set are Python dict keys and a Python set, modelled
as finite sets of names.  Each round first adds every testbed device not yet
visited to the visited set and only then fetches its neighbor data; the names
that the round may add to the testbed are produced by the external fetch and
merge machinery, abstracted by an oracle `fetch` from a device to the set of
(normalized, kept) destination names its neighbor data contributes. -/

structure LoopState where
  devices : Finset String
  visited : Finset String
deriving DecidableEq

/-- One round of the discovery loop: mark the frontier visited (lines
201-204), then extend the device set with everything discovered from the
frontier (lines 157-162). -/
def discoveryRound (fetch : String → Finset String) (s : LoopState) : LoopState :=
  { devices := s.devices ∪ (s.devices \ s.visited).biUnion fetch,
    visited := s.visited ∪ s.devices }

/-- Fuelled embedding of `while len(testbed.devices) > len(visited_devices)`
without the links-only break; returns the final state and the number of
executed rounds, or `none` when the fuel is insufficient. -/
def discoveryLoop (fetch : String → Finset String) :
    Nat → LoopState → Option (LoopState × Nat)
  | 0, s => if s.visited.card < s.devices.card then none else some (s, 0)
  | n + 1, s =>
    if s.visited.card < s.devices.card then
      match discoveryLoop fetch n (discoveryRound fetch s) with
      | some (t, r) => some (t, r + 1)
      | none => none
    else some (s, 0)

/-- Success predicate on a loop outcome: the loop terminated, executed at
most as many rounds as the final device count, the visited set grew
monotonically from `s`, devices were never removed, and on exit every graph
device is visited. -/
def loopOutcomeOk (s : LoopState) : Option (LoopState × Nat) → Prop
  | none => False
  | some (t, r) =>
      r ≤ t.devices.card ∧ s.visited ⊆ t.visited ∧ s.devices ⊆ t.devices ∧
        t.visited = t.devices

/-- Concrete fetch oracle for the C9 witness: one device discovering one
other device. -/
def c9fetch (d : String) : Finset String :=
  if d = "r1" then {"r2"} else ∅

/-! ## Link commit (`_write_connections_to_testbed`, lines 686-724)

Interfaces are identified by the pair (device name, interface name), which is
exactly the path `testbed.devices[device].interfaces[interface_name]` used by
the source; the nested lookup is flattened into a pair-keyed association
list.  Following the documented object model, an interface stores an
optional back-reference to its link (here the index of the link in the
append-only link list), a link stores its name and the list of member
interfaces, and connecting an interface to a link appends it to the member
list and redirects its back-reference.  A `none` result models the
`KeyError` of an unguarded lookup of a missing device or interface. -/

/-- One entry of the per-interface connection list. -/
structure ConnEntry where
  dest_host : String
  dest_port : String
deriving DecidableEq

/-- Graph state seen by the link commit: interface back-references and the
link list. -/
structure LinkState where
  ifaces : List ((String × String) × Option Nat)
  links : List (String × List (String × String))
deriving DecidableEq

/-- Set the back-reference of one interface. -/
def setIfaceLink (st : LinkState) (k : String × String) (i : Nat) : LinkState :=
  { st with ifaces := alSet st.ifaces k (some i) }

/-- Connect every listed interface to link `i` (the `Link` constructor
applied to `int_list`). -/
def setLinksAll (st : LinkState) (ks : List (String × String)) (i : Nat) :
    LinkState :=
  ks.foldl (fun s k => setIfaceLink s k i) st

/-- Members of link `i`, empty when the index is out of range. -/
def linkMembers (st : LinkState) (i : Nat) : List (String × String) :=
  match st.links[i]? with
  | some l => l.2
  | none => []

/-- Decidable form of the statement that link `i` exists and contains
interface `k`. -/
def linkAtContains (st : LinkState) (i : Nat) (k : String × String) : Prop :=
  match st.links[i]? with
  | some l => k ∈ l.2
  | none => False

/-- Lines 703-710: starting from `[interface]`, look up every referenced
remote interface (KeyError when missing) and append it unless already
collected. -/
def collectIntList (st : LinkState) (acc : List (String × String)) :
    List ConnEntry → Option (List (String × String))
  | [] => some acc
  | e :: rest =>
    match alLookup st.ifaces (e.dest_host, e.dest_port) with
    | none => none
    | some _ =>
      if (e.dest_host, e.dest_port) ∈ acc then collectIntList st acc rest
      else collectIntList st (acc ++ [(e.dest_host, e.dest_port)]) rest

/-- Lines 717-723: the interface already belongs to link `i`; for each entry
look up the remote interface (KeyError when missing) and, when it is not yet
a member of the link, connect it (append to the member list and redirect its
back-reference). -/
def extendLink (st : LinkState) (i : Nat) : List ConnEntry → Option LinkState
  | [] => some st
  | e :: rest =>
    match alLookup st.ifaces (e.dest_host, e.dest_port) with
    | none => none
    | some _ =>
      match st.links[i]? with
      | none => none
      | some (nm, ms) =>
        if (e.dest_host, e.dest_port) ∈ ms then extendLink st i rest
        else
          extendLink
            (setIfaceLink
              { st with links := st.links.set i (nm, ms ++ [(e.dest_host, e.dest_port)]) }
              (e.dest_host, e.dest_port) i)
            i rest

/-- Commit of the connection entries of one local interface (lines 698-723):
when the interface has no link, collect the member list and create
`Link_<n>` with `n` the current link count, connecting every member; when it
already has a link, extend that link. -/
def commitIface (st : LinkState) (device intfName : String)
    (entries : List ConnEntry) : Option LinkState :=
  match alLookup st.ifaces (device, intfName) with
  | none => none
  | some none =>
    match collectIntList st [(device, intfName)] entries with
    | none => none
    | some int_list =>
      let st' := setLinksAll st int_list st.links.length
      some { st' with
              links := st'.links ++
                [("Link_" ++ toString st.links.length, int_list)] }
  | some (some i) => extendLink st i entries

/-- Loop over the interfaces of one discovering device (line 696). -/
def commitDevice (device : String) (st : LinkState) :
    List (String × List ConnEntry) → Option LinkState
  | [] => some st
  | (intfName, entries) :: rest =>
    match commitIface st device intfName entries with
    | none => none
    | some st' => commitDevice device st' rest

/-- Embedding of `_write_connections_to_testbed` (lines 694-723): loop over
the discovering devices of the connection dictionary. -/
def write_connections :
    List (String × List (String × List ConnEntry)) → LinkState → Option LinkState
  | [], st => some st
  | (device, ifmap) :: rest, st =>
    match commitDevice device st ifmap with
    | none => none
    | some st' => write_connections rest st'

/-- Three link-free interfaces on three devices. -/
def lsABC : LinkState :=
  { ifaces := [(("A", "Gi1"), none), (("B", "Gi2"), none), (("C", "Gi3"), none)],
    links := [] }

/-- Connection dictionary for the C2 analysis: two discovering devices both
reference the same remote interface of B. -/
def cdC2 : List (String × List (String × List ConnEntry)) :=
  [("A", [("Gi1", [{ dest_host := "B", dest_port := "Gi2" }])]),
   ("C", [("Gi3", [{ dest_host := "B", dest_port := "Gi2" }])])]

/-- Connection dictionary for the C3 analysis: the second discovering device
references the local interface of the first. -/
def cdC3 : List (String × List (String × List ConnEntry)) :=
  [("A", [("Gi1", [{ dest_host := "B", dest_port := "Gi2" }])]),
   ("C", [("Gi3", [{ dest_host := "A", dest_port := "Gi1" }])])]

/-- Concrete result of committing the first interface of `cdC2` on `lsABC`,
used by the C2 witness. -/
def c2WitnessResult : LinkState :=
  { ifaces := [(("A", "Gi1"), some 0), (("B", "Gi2"), some 0), (("C", "Gi3"), none)],
    links := [("Link_0", [("A", "Gi1"), ("B", "Gi2")])] }

/-! ## Neighbor processing and device instantiation

This part embeds `_process_cdp_information`, `_process_lldp_information`,
`add_to_device_list`, `add_to_connection_dict`, `write_proxy_chain` and
`_write_devices_into_testbed`.  Address sets carry `Option String` elements
because the LLDP branch inserts a possibly-`None` address into the
management-address set; CDP addresses are wrapped in `some`.  The parsed
exclusion networks (an `ipaddress` concern, external to the core) are
modelled as membership predicates on address strings.  The binding of the
Python loop variable `ip`, which survives across iterations of the outer
device loop of `_write_devices_into_testbed`, is threaded explicitly as an
`Option (Option String)`: `none` means the name was never bound (a
`NameError` on use). -/

/-- Run-wide configuration read by the processing code. -/
structure Config where
  only_links : Bool
  exclude_interfaces : String
  exclude_networks : List (String → Bool)
  add_unconnected_interfaces : Bool

/-- One value of the `device_list` accumulator. -/
structure DevRec where
  ports : List String
  ip : List (Option String)
  os : Option String
  finder : String × List (Option String)
deriving DecidableEq

/-- Python `set.add`. -/
def pySetAdd {α : Type} [DecidableEq α] (l : List α) (x : α) : List α :=
  if x ∈ l then l else l ++ [x]

/-- Python `set.union`. -/
def pySetUnion {α : Type} [DecidableEq α] (a b : List α) : List α :=
  b.foldl pySetAdd a

/-- Python set construction from an iterable (deduplication). -/
def pyDedup {α : Type} [DecidableEq α] (l : List α) : List α :=
  l.foldl pySetAdd []

/-- Embedding of `add_to_device_list` (lines 457-481): record a discovered
device, unioning ports and management addresses, keeping the earliest
non-null OS, and keeping the first finder. -/
def add_to_device_list (device_list : List (String × DevRec))
    (dest_host dest_port : String) (int_address mgmt_address : List (Option String))
    (os : Option String) (discover_name : String) : List (String × DevRec) :=
  let int2 := int_address.filter (fun x => decide (x ∉ mgmt_address))
  match alLookup device_list dest_host with
  | none =>
    device_list ++ [(dest_host,
      { ports := [dest_port], ip := mgmt_address, os := os,
        finder := (discover_name, int2) })]
  | some r =>
    alSet device_list dest_host
      { r with
          os := if r.os.isNone then os else r.os,
          ports := pySetAdd r.ports dest_port,
          ip := pySetUnion r.ip mgmt_address }

/-- Embedding of `add_to_connection_dict` (lines 483-515): append a unique
(dest_host, dest_port) pair under the local interface. -/
def add_to_connection_dict (connection_dict : List (String × List ConnEntry))
    (dest_host dest_port interface : String) : List (String × List ConnEntry) :=
  match alLookup connection_dict interface with
  | none =>
    connection_dict ++
      [(interface, [{ dest_host := dest_host, dest_port := dest_port }])]
  | some entries =>
    if entries.any (fun en =>
        decide (en.dest_host = dest_host) && decide (en.dest_port = dest_port)) then
      connection_dict
    else
      alSet connection_dict interface
        (entries ++ [{ dest_host := dest_host, dest_port := dest_port }])

/-- Exception-threading left fold. -/
def foldExcept {σ α : Type} (f : α → σ → Except String σ) :
    List α → σ → Except String σ
  | [], st => .ok st
  | a :: as, st =>
    match f a st with
    | .error e => .error e
    | .ok st2 => foldExcept f as st2

/-- One port entry of the parsed LLDP table. -/
structure LldpPort where
  port : String
  neighbors : List (String × LldpNeighbor)

/-- One interface entry of the parsed LLDP table. -/
structure LldpIntf where
  intf : String
  ports : List LldpPort

/-- Parsed LLDP result with its `total_entries` signal. -/
structure LldpResult where
  total_entries : Nat
  interfaces : List LldpIntf

/-- Embedding of the body of `_process_lldp_information` for one
(interface, port) pair (lines 372-422): the raw first neighbor key is used
for the links-only check, then interface exclusion, then the single-address
exclusion check, and only afterwards is the destination name normalized and
recorded. -/
def process_lldp_one (cfg : Config) (tbNames : List String)
    (device_name intf : String) (p : LldpPort)
    (st : List (String × DevRec) × List (String × List ConnEntry)) :
    Except String (List (String × DevRec) × List (String × List ConnEntry)) :=
  match p.neighbors.head? with
  | none => .error "IndexError: list index out of range"
  | some (raw, nb) =>
    if cfg.only_links && !(tbNames.contains raw) then .ok st
    else if strContains cfg.exclude_interfaces intf then .ok st
    else if strContains cfg.exclude_interfaces p.port then .ok st
    else
      let ip := lldp_pick_address nb
      let skip :=
        match ip with
        | some a => cfg.exclude_networks.any (fun net => net a)
        | none => false
      if skip then .ok st
      else
        let os := get_os nb.system_description ""
        let dh := normalizeName raw
        .ok (add_to_device_list st.1 dh p.port [] [ip] os device_name,
             add_to_connection_dict st.2 dh p.port intf)

/-- Embedding of `_process_lldp_information` (lines 352-422): loop over the
interfaces and their ports. -/
def process_lldp_information (cfg : Config) (tbNames : List String)
    (device_name : String) (res : LldpResult)
    (st : List (String × DevRec) × List (String × List ConnEntry)) :
    Except String (List (String × DevRec) × List (String × List ConnEntry)) :=
  foldExcept
    (fun it st2 =>
      foldExcept (fun p st3 => process_lldp_one cfg tbNames device_name it.intf p st3)
        it.ports st2)
    res.interfaces st

/-- Fields of one parsed CDP neighbor entry that the code reads. -/
structure CdpEntry where
  system_name : Option String
  device_id : String
  port_id : String
  local_interface : String
  management_addresses : List String
  interface_addresses : List String
  software_version : String
  platform : String

/-- Embedding of the loop body of `_process_cdp_information` (lines
286-350): resolve the destination name (system name when truthy, else
device id), normalize it, then links-only check, interface exclusion,
address exclusion over both address sets, classification, and recording. -/
def process_cdp_one (cfg : Config) (tbNames : List String)
    (device_name : String) (c : CdpEntry)
    (st : List (String × DevRec) × List (String × List ConnEntry)) :
    List (String × DevRec) × List (String × List ConnEntry) :=
  let raw :=
    match c.system_name with
    | some s => if s = "" then c.device_id else s
    | none => c.device_id
  let dh := normalizeName raw
  if cfg.only_links && !(tbNames.contains dh) then st
  else if strContains cfg.exclude_interfaces c.local_interface then st
  else if strContains cfg.exclude_interfaces c.port_id then st
  else
    let int_set := pyDedup c.interface_addresses
    let mgmt_set := pyDedup c.management_addresses
    let stop :=
      int_set.any (fun a => cfg.exclude_networks.any (fun net => net a)) ||
        mgmt_set.any (fun a => cfg.exclude_networks.any (fun net => net a))
    if stop then st
    else
      let os := get_os c.software_version c.platform
      (add_to_device_list st.1 dh c.port_id (int_set.map some) (mgmt_set.map some)
        os device_name,
       add_to_connection_dict st.2 dh c.port_id c.local_interface)

/-- Embedding of `_process_cdp_information` (lines 268-350). -/
def process_cdp_information (cfg : Config) (tbNames : List String)
    (device_name : String) (entries : List CdpEntry)
    (st : List (String × DevRec) × List (String × List ConnEntry)) :
    List (String × DevRec) × List (String × List ConnEntry) :=
  entries.foldl (fun st2 c => process_cdp_one cfg tbNames device_name c st2) st

/-- One hop of a multi-hop proxy chain. -/
structure ProxyStep where
  device : String
  command : String
deriving DecidableEq

/-- Value of the `proxy` field of a connection: a plain device name or a
list of hops. -/
inductive ProxyVal where
  | str : String → ProxyVal
  | steps : List ProxyStep → ProxyVal
deriving DecidableEq

/-- Connection spec fields the code reads and writes. -/
structure MConn where
  protocol : String
  ip : Option String
  proxy : Option ProxyVal
deriving DecidableEq

/-- Graph device as seen by this module. -/
structure MDevice where
  name : String
  os : Option String
  type : String
  credentials : String
  conns : List (String × MConn)
  ifaces : List (String × String)
deriving DecidableEq

/-- Graph of devices (the genie testbed, reduced to what the code reads). -/
structure MTestbed where
  devices : List MDevice
deriving DecidableEq

/-- Lookup `testbed.devices[name]`. -/
def tbLookup (tb : MTestbed) (name : String) : Option MDevice :=
  tb.devices.find? (fun d => decide (d.name = name))

/-- Replace the interface dictionary of one device. -/
def tbSetIfaces (tb : MTestbed) (name : String)
    (ifs : List (String × String)) : MTestbed :=
  { devices :=
      tb.devices.map (fun d => if d.name = name then { d with ifaces := ifs } else d) }

/-- Embedding of the interface-creation loop (lines 260-265 for the visiting
device, and lines 666-672 for already-known discovered devices): add each
listed interface that the device does not own yet, with the type derived by
the interface filter (`TypeError` when the filter does not match). -/
def add_missing_ifaces (tb : MTestbed) (devName : String) (keys : List String) :
    Except String MTestbed :=
  foldExcept
    (fun k tb2 =>
      match tbLookup tb2 devName with
      | none => .error "KeyError: device"
      | some d =>
        if (alLookup d.ifaces k).isSome then .ok tb2
        else
          match ifaceType k with
          | none => .error "TypeError: NoneType is not subscriptable"
          | some t => .ok (tbSetIfaces tb2 devName (d.ifaces ++ [(k, t)])))
    keys tb

/-- Python format of an optional address (`None` prints as `None`). -/
def fmtOptIp (o : Option String) : String :=
  match o with
  | none => "None"
  | some s => s

/-- Python format of the finder address set (the source formats the raw set
object; the quote marks of the Python element repr are omitted here, a
cosmetic difference no claim depends on). -/
def fmtAddrSet (l : List (Option String)) : String :=
  "\x7b" ++ String.intercalate ", " (l.map fmtOptIp) ++ "\x7d"

/-- Overwrite the command of the last hop (`new_proxy[-1]['command'] = ...`);
the empty case cannot arise at the call site. -/
def setLastCommand : List ProxyStep → String → List ProxyStep
  | [], _ => []
  | [p], cmd => [{ p with command := cmd }]
  | p :: q :: ps, cmd => p :: setLastCommand (q :: ps) cmd

/-- Proxy value built from the chosen finder connection (lines 446-455):
with a string proxy build a two-hop chain; with a list proxy rewrite its
last hop and append a finder hop; an absent proxy cannot be chosen by the
search but maps to the no-proxy result. -/
def proxyFromConn (finder_name user ip : String) (c : String × MConn) : ProxyVal :=
  match c.2.proxy with
  | none => ProxyVal.str finder_name
  | some (ProxyVal.str s) =>
    ProxyVal.steps
      [{ device := s, command := "ssh " ++ fmtOptIp c.2.ip },
       { device := finder_name, command := "ssh " ++ user ++ "@" ++ ip }]
  | some (ProxyVal.steps l) =>
    ProxyVal.steps
      ((setLastCommand l ("ssh " ++ user ++ "@" ++ fmtOptIp c.2.ip)) ++
        [{ device := finder_name, command := "ssh " ++ user ++ "@" ++ ip }])

/-- Embedding of `write_proxy_chain` (lines 424-455): find the first
non-default ssh connection of the finder that has a proxy; without one,
return the finder name.  `none` models the `KeyError` of a missing finder
device. -/
def write_proxy_chain (tb : MTestbed) (finder_name user ip : String) :
    Option ProxyVal :=
  match tbLookup tb finder_name with
  | none => none
  | some finder_device =>
    some (match finder_device.conns.find? (fun c =>
        decide (c.1 ≠ "defaults") && decide (c.2.protocol = "ssh")
          && c.2.proxy.isSome) with
      | none => ProxyVal.str finder_name
      | some c => proxyFromConn finder_name user ip c)

/-- Association-list insert-or-replace (Python `d[k] = v`). -/
def alUpsert {κ β : Type} [DecidableEq κ] (l : List (κ × β)) (k : κ) (v : β) :
    List (κ × β) :=
  if (alLookup l k).isSome then alSet l k v else l ++ [(k, v)]

/-- Embedding of the connection-building loops of lines 629-636: one
`ssh<proxy>` connection per (address, proxy) pair; the Python loop variable
`ip` becomes bound to each address in turn (even when the inner proxy loop
is empty) and keeps its last binding. -/
def buildNewConns (proxy_set : List String) (ips : List (Option String))
    (conns : List (String × MConn)) (ipBind : Option (Option String)) :
    List (String × MConn) × Option (Option String) :=
  ips.foldl
    (fun acc ipv =>
      (proxy_set.foldl
        (fun cs p =>
          alUpsert cs ("ssh" ++ p)
            { protocol := "ssh", ip := ipv, proxy := some (ProxyVal.str p) })
        acc.1,
       some ipv))
    (conns, ipBind)

/-- Create the interface dictionary of a new device from its discovered
remote ports (lines 657-661). -/
def mkPortIfaces : List String → Except String (List (String × String))
  | [] => .ok []
  | p :: ps =>
    match ifaceType p with
    | none => .error "TypeError: NoneType is not subscriptable"
    | some t =>
      match mkPortIfaces ps with
      | .error e => .error e
      | .ok rest => .ok ((p, t) :: rest)

/-- Assemble the new `Device` (lines 646-661). -/
def finishNewDevice (name : String) (os : Option String) (credentials : String)
    (conns : List (String × MConn)) (ports : List String) :
    Except String MDevice :=
  match mkPortIfaces ports with
  | .error e => .error e
  | .ok ifs =>
    .ok { name := name, os := os, type := "device", credentials := credentials,
          conns := conns, ifaces := ifs }

/-- Embedding of one iteration of the `for new_dev in device_list` loop of
`_write_devices_into_testbed` (lines 619-683).  `ipBind` is the current
binding of the function-scoped Python variable `ip`; using it while unbound
is the `NameError`. -/
def write_one (proxy_set : List String) (describe : String → List String)
    (cfg : Config) (tb : MTestbed) (devs : List MDevice)
    (ipBind : Option (Option String)) (kv : String × DevRec) :
    Except String (MTestbed × List MDevice × Option (Option String)) :=
  if (tbLookup tb kv.1).isNone then
    match tbLookup tb kv.2.finder.1 with
    | none => .error "KeyError: finder device"
    | some finder_dev =>
      let credentials := finder_dev.credentials
      let built := buildNewConns proxy_set kv.2.ip [] ipBind
      if kv.2.finder.2.isEmpty then
        match finishNewDevice kv.1 kv.2.os credentials built.1 kv.2.ports with
        | .error e => .error e
        | .ok dev => .ok (tb, devs ++ [dev], built.2)
      else
        match write_proxy_chain tb kv.2.finder.1 credentials
            (fmtAddrSet kv.2.finder.2) with
        | none => .error "KeyError: finder device"
        | some fp =>
          match built.2 with
          | none => .error "NameError: name ip is not defined"
          | some ipv =>
            match finishNewDevice kv.1 kv.2.os credentials
                (alUpsert built.1 "finder_proxy"
                  { protocol := "ssh", ip := ipv, proxy := some fp })
                kv.2.ports with
            | .error e => .error e
            | .ok dev => .ok (tb, devs ++ [dev], built.2)
  else
    if !cfg.add_unconnected_interfaces then
      match add_missing_ifaces tb kv.1 kv.2.ports with
      | .error e => .error e
      | .ok tb2 => .ok (tb2, devs, ipBind)
    else
      match add_missing_ifaces tb kv.1 (describe kv.1) with
      | .error e => .error e
      | .ok tb2 => .ok (tb2, devs, ipBind)

/-- Worker for `write_devices`: thread the testbed, the accumulated new
devices and the `ip` binding through the device list. -/
def write_devices_go (proxy_set : List String) (describe : String → List String)
    (cfg : Config) :
    List (String × DevRec) → MTestbed → List MDevice → Option (Option String) →
      Except String (MTestbed × List MDevice)
  | [], tb, devs, _ => .ok (tb, devs)
  | kv :: rest, tb, devs, ipBind =>
    match write_one proxy_set describe cfg tb devs ipBind kv with
    | .error e => .error e
    | .ok (tb2, devs2, ipBind2) =>
      write_devices_go proxy_set describe cfg rest tb2 devs2 ipBind2

/-- Embedding of `_write_devices_into_testbed` (lines 600-684): the Python
`ip` variable starts each call unbound. -/
def write_devices (cfg : Config) (proxy_set : List String)
    (describe : String → List String) (device_list : List (String × DevRec))
    (tb : MTestbed) : Except String (MTestbed × List MDevice) :=
  write_devices_go proxy_set describe cfg device_list tb [] none

/-- Value of `Except.ok`, `none` on `Except.error`. -/
def exceptOk {α : Type} : Except String α → Option α
  | .ok a => some a
  | .error _ => none

/-- One round of `_generate` restricted to the LLDP data of a single visited
device (lines 152-165 with `process_neigbor_data` and
`get_device_connections`): process the neighbor table (honoring the
`total_entries` short-circuit of line 255), create missing local interfaces
on the visiting device, write new devices, and add them to the testbed. -/
def lldp_round (cfg : Config) (proxy_set : List String)
    (describe : String → List String) (tb : MTestbed) (device_name : String)
    (res : LldpResult) : Except String MTestbed :=
  let tbNames := tb.devices.map (fun d => d.name)
  match (if res.total_entries = 0 then Except.ok ([], [])
         else process_lldp_information cfg tbNames device_name res ([], [])) with
  | .error e => .error e
  | .ok (dl, cd) =>
    match add_missing_ifaces tb device_name (cd.map (fun e => e.1)) with
    | .error e => .error e
    | .ok tb2 =>
      match write_devices cfg proxy_set describe dl tb2 with
      | .error e => .error e
      | .ok (tb3, newDevs) => .ok { devices := tb3.devices ++ newDevs }

/-- Configuration with links-only mode enabled and no exclusions. -/
def c1Cfg : Config :=
  { only_links := true, exclude_interfaces := "", exclude_networks := [],
    add_unconnected_interfaces := false }

/-- Default configuration: no links-only mode, no exclusions. -/
def cfgDefault : Config :=
  { only_links := false, exclude_interfaces := "", exclude_networks := [],
    add_unconnected_interfaces := false }

/-- Visiting device of the C1 failing input. -/
def c1SrcDev : MDevice :=
  { name := "srcdev", os := some "nxos", type := "device", credentials := "admin",
    conns := [], ifaces := [] }

/-- Testbed device whose configured name is the fully qualified LLDP name. -/
def c1FqdnDev : MDevice :=
  { name := "n77-1.cisco.com", os := some "nxos", type := "device",
    credentials := "admin", conns := [], ifaces := [] }

/-- Initial testbed of the C1 failing input. -/
def c1Tb : MTestbed := { devices := [c1SrcDev, c1FqdnDev] }

/-- LLDP result of the C1 failing input: the raw neighbor name
`n77-1.cisco.com` is a testbed device, its normalization `n77-1` is not. -/
def c1Lldp : LldpResult :=
  { total_entries := 1,
    interfaces := [{ intf := "Ethernet1/1",
                     ports := [{ port := "Ethernet1/2",
                                 neighbors := [("n77-1.cisco.com",
                                   { management_address := some "10.0.0.5",
                                     management_address_v4 := none,
                                     system_description := "NX-OS" })] }] }] }

/-- Configuration of the C5 failing input: `Gi0/10` is the only excluded
interface name. -/
def c5Cfg : Config :=
  { only_links := false, exclude_interfaces := "Gi0/10", exclude_networks := [],
    add_unconnected_interfaces := false }

/-- CDP entry of the C5 failing input: local interface `Gi0/1`. -/
def c5Entry : CdpEntry :=
  { system_name := some "edge1", device_id := "edge1.example.com",
    port_id := "Gi0/2", local_interface := "Gi0/1",
    management_addresses := ["10.0.0.5"], interface_addresses := [],
    software_version := "Cisco IOS Software", platform := "cisco" }

/-- Finder device of the C10 analysis. -/
def c10Finder : MDevice :=
  { name := "F", os := some "ios", type := "device", credentials := "admin",
    conns := [], ifaces := [] }

/-- Testbed of the C10 analysis. -/
def c10Tb : MTestbed := { devices := [c10Finder] }

/-- First discovered record: one management address, empty finder set. -/
def c10RecX : DevRec :=
  { ports := ["Eth1"], ip := [some "9.9.9.9"], os := some "ios",
    finder := ("F", []) }

/-- Second discovered record: empty management-address set, non-empty finder
interface-address set. -/
def c10RecY : DevRec :=
  { ports := ["Eth2"], ip := [], os := some "ios",
    finder := ("F", [some "10.0.0.3"]) }

/-- Address of the `finder_proxy` connection of the named device, doubly
optional: `none` when the device or the connection is absent. -/
def finderProxyIp (devs : List MDevice) (name : String) : Option (Option String) :=
  match devs.find? (fun d => decide (d.name = name)) with
  | none => none
  | some d =>
    match alLookup d.conns "finder_proxy" with
    | none => none
    | some c => some c.ip

/-- Address of the `finder_proxy` connection of the last created device. -/
def lastDevFinderIp (res : MTestbed × List MDevice × Option (Option String)) :
    Option (Option String) :=
  match res.2.1.getLast? with
  | none => none
  | some d =>
    match alLookup d.conns "finder_proxy" with
    | none => none
    | some c => some c.ip

/-! # Theorems -/

/-! ## Helper lemmas on the normalizer -/

theorem mem_takeWhile_isHostChar {l : List Char} {c : Char}
    (h : c ∈ l.takeWhile isHostChar) : isHostChar c = true := by
  induction l with
  | nil => simp at h
  | cons a as ih =>
    rw [List.takeWhile_cons] at h
    by_cases ha : isHostChar a = true
    · rw [if_pos ha] at h
      rcases List.mem_cons.mp h with h | h
      · subst h; exact ha
      · exact ih h
    · rw [if_neg ha] at h
      simp at h

theorem takeWhile_eq_self_of_all {l : List Char}
    (h : ∀ c ∈ l, isHostChar c = true) : l.takeWhile isHostChar = l := by
  induction l with
  | nil => rfl
  | cons a as ih =>
    rw [List.takeWhile_cons, if_pos (h a (List.mem_cons_self a as))]
    rw [ih (fun c hc => h c (List.mem_cons_of_mem a hc))]

theorem findHostname_spec {l r : List Char} (h : findHostname l = some r) :
    ∃ c cs, r = c :: cs ∧ ∀ d ∈ r, isHostChar d = true := by
  induction l with
  | nil => simp [findHostname] at h
  | cons a as ih =>
    rw [findHostname] at h
    by_cases ha : isHostChar a = true
    · rw [if_pos ha, List.takeWhile_cons, if_pos ha] at h
      cases h
      refine ⟨a, as.takeWhile isHostChar, rfl, ?_⟩
      intro d hd
      rcases List.mem_cons.mp hd with h1 | h2
      · subst h1; exact ha
      · exact mem_takeWhile_isHostChar h2
    · rw [if_neg ha] at h
      by_cases hn : a = '\n'
      · rw [if_pos hn] at h; exact absurd h (by simp)
      · rw [if_neg hn] at h; exact ih h

/-- C7: the name normalizer is idempotent.  When the domain filter does not
match, the input is returned unchanged and a second application sees the same
input; when it matches, the result is a nonempty run of `[-\w]` characters, on
which the filter matches at position zero and captures the whole string. -/
theorem normalizeName_idempotent (x : String) :
    normalizeName (normalizeName x) = normalizeName x := by
  unfold normalizeName
  cases h : findHostname x.toList with
  | none =>
    show (match findHostname x.toList with
          | some run => String.mk run
          | none => x) = x
    rw [h]
  | some r =>
    rcases findHostname_spec h with ⟨c, cs, hr, hall⟩
    subst hr
    have htl : (String.mk (c :: cs)).toList = c :: cs := rfl
    rw [htl]
    have hc : isHostChar c = true := hall c (List.mem_cons_self c cs)
    simp only [findHostname, if_pos hc]
    rw [List.takeWhile_cons, if_pos hc,
        takeWhile_eq_self_of_all (fun d hd => hall d (List.mem_cons_of_mem c hd))]

/-- C6: precedence of the OS classifier.  When either input contains `IOS`,
the presence of `XE` forces `iosxe` (even if `XR` is also present), otherwise
`XR` forces `iosxr`, otherwise the result is `ios`; when neither input
contains `IOS`, the result is `nxos` exactly when either contains `NX-OS`,
and no classification (`none`) otherwise. -/
theorem get_os_precedence (s p : String) :
    ((strContains s "IOS" || strContains p "IOS") = true →
      (((strContains s "XE" || strContains p "XE") = true →
          get_os s p = some "iosxe") ∧
       ((strContains s "XE" || strContains p "XE") = false →
          (strContains s "XR" || strContains p "XR") = true →
          get_os s p = some "iosxr") ∧
       ((strContains s "XE" || strContains p "XE") = false →
          (strContains s "XR" || strContains p "XR") = false →
          get_os s p = some "ios"))) ∧
    ((strContains s "IOS" || strContains p "IOS") = false →
      ((get_os s p = some "nxos" ↔
          (strContains s "NX-OS" || strContains p "NX-OS") = true) ∧
       ((strContains s "NX-OS" || strContains p "NX-OS") = false →
          get_os s p = none))) := by
  unfold get_os
  constructor
  · intro hios
    refine ⟨fun hxe => ?_, fun hxe hxr => ?_, fun hxe hxr => ?_⟩
    · rw [if_pos hios, if_pos hxe]
    · rw [if_pos hios, if_neg (by simp [hxe]), if_pos hxr]
    · rw [if_pos hios, if_neg (by simp [hxe]), if_neg (by simp [hxr])]
  · intro hios
    constructor
    · constructor
      · intro h
        by_contra hnx
        rw [if_neg (by simp [hios]), if_neg (by simp at hnx ⊢; simp [hnx])] at h
        exact Option.noConfusion h
      · intro hnx
        rw [if_neg (by simp [hios]), if_pos hnx]
    · intro hnx
      rw [if_neg (by simp [hios]), if_neg (by simp [hnx])]

/-- Witness for C6 at a concrete input containing `IOS`, `XR` and `XE`. -/
theorem get_os_precedence_witness :
    get_os "Cisco IOS XR XE Software" "" = some "iosxe" :=
  ((get_os_precedence "Cisco IOS XR XE Software" "").1 (by decide)).1 (by decide)

/-- C4 counterexample: a neighbor whose 4-family management address field is
present is nevertheless checked under the generic `management_address` field;
the code prefers the generic field, the claim says the 4-family field is
preferred when present. -/
theorem lldp_pick_address_counterexample :
    lldp_pick_address
        { management_address := some "10.0.0.1",
          management_address_v4 := some "192.168.1.1",
          system_description := "" } = some "10.0.0.1" ∧
    ¬ (lldp_pick_address
        { management_address := some "10.0.0.1",
          management_address_v4 := some "192.168.1.1",
          system_description := "" } = some "192.168.1.1") := by
  decide

/-- C4 amended: the address used for the excluded-network check is the
neighbor generic `management_address` field when present, and only when that
field is absent does the check fall back to `management_address_v4`. -/
theorem lldp_pick_address_amended (n : LldpNeighbor) :
    (∀ a, n.management_address = some a → lldp_pick_address n = some a) ∧
    (n.management_address = none →
      lldp_pick_address n = n.management_address_v4) := by
  constructor
  · intro a ha
    unfold lldp_pick_address
    rw [ha]
  · intro ha
    unfold lldp_pick_address
    rw [ha]

/-- Witness for the amended C4 at concrete neighbors. -/
theorem lldp_pick_address_amended_witness :
    lldp_pick_address
      { management_address := some "1.1.1.1",
        management_address_v4 := some "2.2.2.2",
        system_description := "" } = some "1.1.1.1" :=
  (lldp_pick_address_amended _).1 "1.1.1.1" rfl

/-- C5: with only `Gi0/10` configured, the interface `Gi0/1` is nevertheless
skipped, because the code tests substring containment in the raw
`exclude_interfaces` string instead of membership in its list of words;
`Gi0/1` is not one of the configured names, yet the whole CDP entry is
dropped (the processing step leaves the accumulators unchanged). -/
theorem interface_excluded_code_bug :
    interface_excluded "Gi0/10" "Gi0/1" "Gi0/2" = true ∧
    ¬ ("Gi0/1" ∈ excludeInterfaceWords "Gi0/10") ∧
    ¬ ("Gi0/2" ∈ excludeInterfaceWords "Gi0/10") ∧
    process_cdp_one c5Cfg ["srcdev"] "srcdev" c5Entry ([], []) = ([], []) := by
  decide

/-! ## Helper lemmas on association lists -/

theorem alLookup_append_left {κ β : Type} [DecidableEq κ] {l1 l2 : List (κ × β)}
    {k : κ} {v : β} (h : alLookup l1 k = some v) :
    alLookup (l1 ++ l2) k = some v := by
  induction l1 with
  | nil => simp [alLookup] at h
  | cons e es ih =>
    rw [List.cons_append, alLookup]
    rw [alLookup] at h
    by_cases he : e.1 = k
    · rwa [if_pos he] at h ⊢
    · rw [if_neg he] at h ⊢
      exact ih h

theorem alLookup_append_right {κ β : Type} [DecidableEq κ] {l1 l2 : List (κ × β)}
    {k : κ} (h : alLookup l1 k = none) :
    alLookup (l1 ++ l2) k = alLookup l2 k := by
  induction l1 with
  | nil => rfl
  | cons e es ih =>
    rw [List.cons_append, alLookup]
    rw [alLookup] at h
    by_cases he : e.1 = k
    · rw [if_pos he] at h; exact absurd h (by simp)
    · rw [if_neg he] at h ⊢
      exact ih h

theorem alLookup_map_with_key {β γ : Type} (g : String → β → γ)
    (l : List (String × β)) (k : String) :
    alLookup (l.map (fun e => (e.1, g e.1 e.2))) k = (alLookup l k).map (g k) := by
  induction l with
  | nil => rfl
  | cons e es ih =>
    rw [List.map_cons, alLookup, alLookup]
    by_cases he : e.1 = k
    · rw [if_pos he, if_pos he, he]
      rfl
    · rw [if_neg he, if_neg he]
      exact ih

theorem alLookup_filter_isNone {β γ : Type} (old : List (String × γ))
    (l : List (String × β)) (k : String) :
    alLookup (l.filter (fun e => (alLookup old e.1).isNone)) k =
      if (alLookup old k).isNone then alLookup l k else none := by
  induction l with
  | nil => cases hq : (alLookup old k).isNone <;> simp [alLookup]
  | cons e es ih =>
    rw [List.filter_cons]
    by_cases hq : (alLookup old e.1).isNone = true
    · rw [if_pos hq, alLookup]
      by_cases he : e.1 = k
      · subst he
        rw [if_pos rfl, if_pos hq, alLookup, if_pos rfl]
      · rw [if_neg he, ih, alLookup, if_neg he]
    · rw [if_neg hq, ih]
      by_cases he : e.1 = k
      · subst he
        rw [if_neg hq, if_neg hq]
      · rw [alLookup, if_neg he]

theorem dictUpdate_lookup {β : Type} (old new : List (String × β)) (k : String) :
    ((alLookup new k = none →
        alLookup (dictUpdate old new) k = alLookup old k) ∧
     (∀ v, alLookup new k = some v →
        alLookup (dictUpdate old new) k = some v)) := by
  constructor
  · intro hnew
    unfold dictUpdate
    cases hold : alLookup old k with
    | some v =>
      have hv : updVal new k v = v := by unfold updVal; rw [hnew]
      have hm : alLookup (old.map (fun e => (e.1, updVal new e.1 e.2))) k
          = some (updVal new k v) := by
        rw [alLookup_map_with_key, hold]; rfl
      rw [hv] at hm
      exact alLookup_append_left hm
    | none =>
      have hm : alLookup (old.map (fun e => (e.1, updVal new e.1 e.2))) k = none := by
        rw [alLookup_map_with_key, hold]; rfl
      rw [alLookup_append_right hm, alLookup_filter_isNone old new k, hold]
      simpa using hnew
  · intro v hnew
    unfold dictUpdate
    cases hold : alLookup old k with
    | some w =>
      have hv : updVal new k w = v := by unfold updVal; rw [hnew]
      have hm : alLookup (old.map (fun e => (e.1, updVal new e.1 e.2))) k
          = some (updVal new k w) := by
        rw [alLookup_map_with_key, hold]; rfl
      rw [hv] at hm
      exact alLookup_append_left hm
    | none =>
      have hm : alLookup (old.map (fun e => (e.1, updVal new e.1 e.2))) k = none := by
        rw [alLookup_map_with_key, hold]; rfl
      rw [alLookup_append_right hm, alLookup_filter_isNone old new k, hold]
      simpa using hnew

/-- C8 counterexample: the interface entry `eth0 = 1` is present in the input
configuration, yet the merged output maps `eth0` to the new value `2`: the
interface dictionary of a topology device present on both sides is merged
with Python `update`, which overwrites existing entries. -/
theorem create_yaml_merge_counterexample :
    ((create_yaml_merge c8Input [] c8NewTopo).topology.bind
        (fun t => (alLookup t "devA").bind (fun ifs => alLookup ifs "eth0"))) = some 2 ∧
    (c8Input.topology.bind
        (fun t => (alLookup t "devA").bind (fun ifs => alLookup ifs "eth0"))) = some 1 ∧
    some (2 : Nat) ≠ some 1 := by
  decide

/-- C8 amended: device entries present in the input are preserved, topology
entries of devices present in the input stay present, interface entries not
mentioned in the new data are preserved, but an interface entry present in
both the input and the new data is overwritten with the new value. -/
theorem create_yaml_merge_amended {α β : Type} (input : YamlConfig α β)
    (newDevices : List (String × α))
    (newTopology : List (String × List (String × β))) :
    (∀ k v, alLookup input.devices k = some v →
        alLookup (create_yaml_merge input newDevices newTopology).devices k = some v) ∧
    (∀ topo d ifs, input.topology = some topo → alLookup topo d = some ifs →
        (create_yaml_merge input newDevices newTopology).topology =
          some (mergeTopology topo newTopology) ∧
        alLookup (mergeTopology topo newTopology) d =
          some (topoMergeVal newTopology d ifs)) ∧
    (∀ (old new : List (String × β)) k,
        (alLookup new k = none →
          alLookup (dictUpdate old new) k = alLookup old k) ∧
        (∀ v, alLookup new k = some v →
          alLookup (dictUpdate old new) k = some v)) := by
  refine ⟨?_, ?_, fun old new k => dictUpdate_lookup old new k⟩
  · intro k v h
    show alLookup (mergeDevices input.devices newDevices) k = some v
    exact alLookup_append_left h
  · intro topo d ifs htopo hd
    constructor
    · show (match input.topology with
            | none => some newTopology
            | some t => some (mergeTopology t newTopology)) =
          some (mergeTopology topo newTopology)
      rw [htopo]
    · unfold mergeTopology
      have hm : alLookup (topo.map (fun e => (e.1, topoMergeVal newTopology e.1 e.2))) d
          = some (topoMergeVal newTopology d ifs) := by
        rw [alLookup_map_with_key, hd]; rfl
      exact alLookup_append_left hm

/-- Witness for the amended C8: the preserved device entry and the
interface-level characterization evaluated at the concrete configuration. -/
theorem create_yaml_merge_amended_witness :
    alLookup (create_yaml_merge c8Input [] c8NewTopo).devices "devA" = some 1 :=
  (create_yaml_merge_amended c8Input [] c8NewTopo).1 "devA" 1 (by decide)

/-! ## Discovery loop lemmas -/

theorem discoveryLoop_go (fetch : String → Finset String) (B : Finset String)
    (hfetch : ∀ d, fetch d ⊆ B) :
    ∀ n s, s.visited ⊆ s.devices → s.devices ⊆ B →
      B.card - s.visited.card ≤ n →
      ∃ t r, discoveryLoop fetch n s = some (t, r) ∧
        r + s.visited.card ≤ t.devices.card ∧
        s.visited ⊆ t.visited ∧ s.devices ⊆ t.devices ∧ t.visited = t.devices := by
  intro n
  induction n with
  | zero =>
    intro s hsub hB hfuel
    have hcv : s.visited.card ≤ s.devices.card := Finset.card_le_card hsub
    have hcd : s.devices.card ≤ B.card := Finset.card_le_card hB
    have hcond : ¬ (s.visited.card < s.devices.card) := by omega
    refine ⟨s, 0, by simp [discoveryLoop, hcond], by omega, subset_rfl, subset_rfl, ?_⟩
    exact Finset.eq_of_subset_of_card_le hsub (by omega)
  | succ n ih =>
    intro s hsub hB hfuel
    by_cases hcond : s.visited.card < s.devices.card
    · have hvis : (discoveryRound fetch s).visited = s.visited ∪ s.devices := rfl
      have hdev : (discoveryRound fetch s).devices
          = s.devices ∪ (s.devices \ s.visited).biUnion fetch := rfl
      have hsub' : (discoveryRound fetch s).visited ⊆ (discoveryRound fetch s).devices := by
        rw [hvis, hdev]
        intro x hx
        rcases Finset.mem_union.mp hx with h | h
        · exact Finset.mem_union_left _ (hsub h)
        · exact Finset.mem_union_left _ h
      have hB' : (discoveryRound fetch s).devices ⊆ B := by
        rw [hdev]
        intro x hx
        rcases Finset.mem_union.mp hx with h | h
        · exact hB h
        · rcases Finset.mem_biUnion.mp h with ⟨d, _, hxd⟩
          exact hfetch d hxd
      have hcardv : (discoveryRound fetch s).visited.card = s.devices.card := by
        rw [hvis, Finset.union_eq_right.mpr hsub]
      have hfuel' : B.card - (discoveryRound fetch s).visited.card ≤ n := by omega
      obtain ⟨t, r, hloop, hcard, hvsub, hdsub, hfin⟩ :=
        ih (discoveryRound fetch s) hsub' hB' hfuel'
      refine ⟨t, r + 1, by simp [discoveryLoop, hcond, hloop], by omega, ?_, ?_, hfin⟩
      · exact subset_trans (by rw [hvis]; exact Finset.subset_union_left) hvsub
      · exact subset_trans (by rw [hdev]; exact Finset.subset_union_left) hdsub
    · have hcv : s.visited.card ≤ s.devices.card := Finset.card_le_card hsub
      refine ⟨s, 0, by simp [discoveryLoop, hcond], by omega, subset_rfl, subset_rfl, ?_⟩
      exact Finset.eq_of_subset_of_card_le hsub (by omega)

/-- C9: in the non-links-only loop, every round first marks all unvisited
graph devices visited and only grows the visited and device sets; with every
discoverable name drawn from a finite universe `U`, the loop terminates, on
exit every graph device is visited, and the number of executed rounds is
bounded by the final number of devices in the graph. -/
theorem discovery_loop_spec (fetch : String → Finset String) (U : Finset String)
    (s : LoopState) (hsub : s.visited ⊆ s.devices) (hfetch : ∀ d, fetch d ⊆ U) :
    (∀ st : LoopState, st.devices ⊆ (discoveryRound fetch st).visited ∧
        st.visited ⊆ (discoveryRound fetch st).visited ∧
        st.devices ⊆ (discoveryRound fetch st).devices) ∧
    loopOutcomeOk s (discoveryLoop fetch (U ∪ s.devices).card s) := by
  constructor
  · intro st
    exact ⟨Finset.subset_union_right, Finset.subset_union_left,
      Finset.subset_union_left⟩
  · obtain ⟨t, r, hloop, hcard, h1, h2, h3⟩ :=
      discoveryLoop_go fetch (U ∪ s.devices)
        (fun d => subset_trans (hfetch d) Finset.subset_union_left)
        (U ∪ s.devices).card s hsub Finset.subset_union_right (by omega)
    rw [hloop]
    exact ⟨by omega, h1, h2, h3⟩

/-- Witness for C9: a one-device testbed whose device discovers one new
device; the loop terminates with both devices visited. -/
theorem discovery_loop_spec_witness :
    loopOutcomeOk ⟨{"r1"}, ∅⟩
      (discoveryLoop c9fetch (({"r1", "r2"} : Finset String) ∪ ({"r1"} : Finset String)).card
        ⟨{"r1"}, ∅⟩) :=
  (discovery_loop_spec c9fetch {"r1", "r2"} ⟨{"r1"}, ∅⟩ (by simp)
      (by intro d; unfold c9fetch; split <;> decide)).2

/-! ## Link commit lemmas -/

theorem alLookup_alSet_self {κ β : Type} [DecidableEq κ]
    (l : List (κ × β)) (k : κ) (v : β) :
    alLookup (alSet l k v) k = (alLookup l k).map (fun _ => v) := by
  induction l with
  | nil => rfl
  | cons e es ih =>
    rw [alSet, List.map_cons]
    by_cases he : e.1 = k
    · rw [if_pos he, alLookup, if_pos rfl, alLookup, if_pos he]
      rfl
    · rw [if_neg he, alLookup, if_neg he, alLookup, if_neg he]
      exact ih

theorem alLookup_alSet_ne {κ β : Type} [DecidableEq κ]
    (l : List (κ × β)) (k k' : κ) (v : β) (h : k' ≠ k) :
    alLookup (alSet l k v) k' = alLookup l k' := by
  induction l with
  | nil => rfl
  | cons e es ih =>
    rw [alSet, List.map_cons]
    by_cases he : e.1 = k
    · rw [if_pos he, alLookup, if_neg (fun hk => h hk.symm), alLookup,
          if_neg (fun he' => h (he ▸ he').symm)]
      exact ih
    · rw [if_neg he, alLookup, alLookup]
      by_cases he' : e.1 = k'
      · rw [if_pos he', if_pos he']
      · rw [if_neg he', if_neg he']
        exact ih

theorem setIfaceLink_links (st : LinkState) (k : String × String) (i : Nat) :
    (setIfaceLink st k i).links = st.links := rfl

theorem setLinksAll_links (ks : List (String × String)) (st : LinkState) (i : Nat) :
    (setLinksAll st ks i).links = st.links := by
  induction ks generalizing st with
  | nil => rfl
  | cons k rest ih => exact ih (setIfaceLink st k i)

theorem setIfaceLink_isSome (st : LinkState) (k k' : String × String) (i : Nat) :
    (alLookup (setIfaceLink st k i).ifaces k').isSome
      = (alLookup st.ifaces k').isSome := by
  by_cases he : k' = k
  · subst he
    show (alLookup (alSet st.ifaces k' (some i)) k').isSome = _
    rw [alLookup_alSet_self]
    cases alLookup st.ifaces k' <;> rfl
  · show (alLookup (alSet st.ifaces k (some i)) k').isSome = _
    rw [alLookup_alSet_ne st.ifaces k k' (some i) he]

theorem setLinksAll_isSome (ks : List (String × String)) (st : LinkState)
    (i : Nat) (k : String × String) :
    (alLookup (setLinksAll st ks i).ifaces k).isSome
      = (alLookup st.ifaces k).isSome := by
  induction ks generalizing st with
  | nil => rfl
  | cons k0 rest ih =>
    show (alLookup (setLinksAll (setIfaceLink st k0 i) rest i).ifaces k).isSome = _
    rw [ih (setIfaceLink st k0 i), setIfaceLink_isSome]

theorem setLinksAll_lookup_not_mem (ks : List (String × String)) (st : LinkState)
    (i : Nat) (k : String × String) (h : k ∉ ks) :
    alLookup (setLinksAll st ks i).ifaces k = alLookup st.ifaces k := by
  induction ks generalizing st with
  | nil => rfl
  | cons k0 rest ih =>
    have hne : k ≠ k0 := fun he => h (he ▸ List.mem_cons_self k0 rest)
    show alLookup (setLinksAll (setIfaceLink st k0 i) rest i).ifaces k = _
    rw [ih (setIfaceLink st k0 i) (fun hm => h (List.mem_cons_of_mem k0 hm))]
    exact alLookup_alSet_ne st.ifaces k0 k (some i) hne

theorem setLinksAll_lookup_mem (ks : List (String × String)) (st : LinkState)
    (i : Nat) (k : String × String) (h : k ∈ ks)
    (ho : (alLookup st.ifaces k).isSome = true) :
    alLookup (setLinksAll st ks i).ifaces k = some (some i) := by
  induction ks generalizing st with
  | nil => simp at h
  | cons k0 rest ih =>
    show alLookup (setLinksAll (setIfaceLink st k0 i) rest i).ifaces k = _
    by_cases he : k = k0
    · subst he
      have hset : alLookup (setIfaceLink st k i).ifaces k = some (some i) := by
        show alLookup (alSet st.ifaces k (some i)) k = _
        rw [alLookup_alSet_self]
        rcases Option.isSome_iff_exists.mp ho with ⟨v, hv⟩
        rw [hv]
        rfl
      by_cases hm : k ∈ rest
      · exact ih (setIfaceLink st k i) hm (by rw [hset]; rfl)
      · rw [setLinksAll_lookup_not_mem rest (setIfaceLink st k i) i k hm]
        exact hset
    · have hm : k ∈ rest := by
        rcases List.mem_cons.mp h with h1 | h1
        · exact absurd h1 he
        · exact h1
      exact ih (setIfaceLink st k0 i) hm (by rw [setIfaceLink_isSome]; exact ho)

theorem listGetConcatLength {α : Type} (l : List α) (x : α) :
    (l ++ [x])[l.length]? = some x := by
  induction l with
  | nil => rfl
  | cons a as ih =>
    show (a :: (as ++ [x]))[as.length + 1]? = some x
    rw [List.getElem?_cons_succ]
    exact ih

theorem listGetSome_lt {α : Type} {l : List α} {i : Nat} {x : α}
    (h : l[i]? = some x) : i < l.length := by
  induction l generalizing i with
  | nil => simp at h
  | cons a as ih =>
    cases i with
    | zero => simp
    | succ j =>
      rw [List.getElem?_cons_succ] at h
      have := ih h
      simp
      omega

theorem listGetSet_self {α : Type} {l : List α} {i : Nat} (h : i < l.length)
    (x : α) : (l.set i x)[i]? = some x := by
  induction l generalizing i with
  | nil => simp at h
  | cons a as ih =>
    cases i with
    | zero => simp
    | succ j =>
      show (a :: as.set j x)[j + 1]? = some x
      rw [List.getElem?_cons_succ]
      exact ih (by simp at h; omega)

theorem collectIntList_prefix {st : LinkState} {acc r : List (String × String)}
    {es : List ConnEntry} (h : collectIntList st acc es = some r) :
    ∃ ext, r = acc ++ ext := by
  induction es generalizing acc with
  | nil =>
    rw [collectIntList] at h
    cases h
    exact ⟨[], by simp⟩
  | cons e rest ih =>
    rw [collectIntList] at h
    split at h
    · exact absurd h (by simp)
    · split at h
      · exact ih h
      · rcases ih h with ⟨ext, hext⟩
        refine ⟨(e.dest_host, e.dest_port) :: ext, ?_⟩
        rw [hext, List.append_assoc]
        rfl

theorem collectIntList_mem_entry {st : LinkState} {acc r : List (String × String)}
    {es : List ConnEntry} (h : collectIntList st acc es = some r) :
    ∀ e ∈ es, (e.dest_host, e.dest_port) ∈ r := by
  induction es generalizing acc with
  | nil => intro e he; simp at he
  | cons e0 rest ih =>
    intro e he
    rw [collectIntList] at h
    split at h
    · exact absurd h (by simp)
    · rcases List.mem_cons.mp he with he1 | he1
      · subst he1
        split at h
        · rcases collectIntList_prefix h with ⟨ext, hext⟩
          subst hext
          exact List.mem_append_left ext (by assumption)
        · rcases collectIntList_prefix h with ⟨ext, hext⟩
          subst hext
          exact List.mem_append_left ext (by simp)
      · split at h
        · exact ih h e he1
        · exact ih h e he1

theorem collectIntList_isSome {st : LinkState} {acc r : List (String × String)}
    {es : List ConnEntry} (h : collectIntList st acc es = some r) :
    ∀ e ∈ es, (alLookup st.ifaces (e.dest_host, e.dest_port)).isSome = true := by
  induction es generalizing acc with
  | nil => intro e he; simp at he
  | cons e0 rest ih =>
    intro e he
    rw [collectIntList] at h
    split at h
    · exact absurd h (by simp)
    · rcases List.mem_cons.mp he with he1 | he1
      · subst he1
        rename_i w hw
        rw [hw]
        rfl
      · split at h
        · exact ih h e he1
        · exact ih h e he1

theorem linkMembers_eq {st : LinkState} {i : Nat} {nm : String}
    {ms : List (String × String)} (heq : st.links[i]? = some (nm, ms)) :
    linkMembers st i = ms := by
  unfold linkMembers
  rw [heq]

theorem linkMembers_connect (st : LinkState) (i : Nat) (nm : String)
    (ms : List (String × String)) (k : String × String)
    (heq : st.links[i]? = some (nm, ms)) :
    linkMembers
      (setIfaceLink { st with links := st.links.set i (nm, ms ++ [k]) } k i) i
      = ms ++ [k] := by
  unfold linkMembers
  show (match (st.links.set i (nm, ms ++ [k]))[i]? with
        | some l => l.2
        | none => []) = ms ++ [k]
  rw [listGetSet_self (listGetSome_lt heq) _]

theorem extendLink_links_length {st st' : LinkState} {i : Nat}
    {es : List ConnEntry} (h : extendLink st i es = some st') :
    st'.links.length = st.links.length := by
  induction es generalizing st with
  | nil =>
    rw [extendLink] at h
    cases h
    rfl
  | cons e rest ih =>
    rw [extendLink] at h
    split at h
    · exact absurd h (by simp)
    · split at h
      · exact absurd h (by simp)
      · split at h
        · exact ih h
        · rw [ih h]
          show (st.links.set i _).length = st.links.length
          simp

theorem extendLink_members_grow {st st' : LinkState} {i : Nat}
    {es : List ConnEntry} (h : extendLink st i es = some st') :
    ∃ ext, linkMembers st' i = linkMembers st i ++ ext := by
  induction es generalizing st with
  | nil =>
    rw [extendLink] at h
    cases h
    exact ⟨[], by simp⟩
  | cons e rest ih =>
    rw [extendLink] at h
    split at h
    · exact absurd h (by simp)
    · split at h
      · exact absurd h (by simp)
      · rename_i nm ms heq
        split at h
        · exact ih h
        · rcases ih h with ⟨ext, hext⟩
          refine ⟨(e.dest_host, e.dest_port) :: ext, ?_⟩
          rw [hext, linkMembers_connect st i nm ms _ heq, linkMembers_eq heq,
              List.append_assoc]
          rfl

theorem extendLink_mem {st st' : LinkState} {i : Nat} {es : List ConnEntry}
    (h : extendLink st i es = some st') :
    ∀ e ∈ es, (e.dest_host, e.dest_port) ∈ linkMembers st' i := by
  induction es generalizing st with
  | nil => intro e he; simp at he
  | cons e0 rest ih =>
    intro e he
    rw [extendLink] at h
    split at h
    · exact absurd h (by simp)
    · split at h
      · exact absurd h (by simp)
      · rename_i nm ms heq
        split at h
        · rcases List.mem_cons.mp he with he1 | he1
          · subst he1
            rcases extendLink_members_grow h with ⟨ext, hext⟩
            rw [hext, linkMembers_eq heq]
            exact List.mem_append_left ext (by assumption)
          · exact ih h e he1
        · rcases List.mem_cons.mp he with he1 | he1
          · subst he1
            rcases extendLink_members_grow h with ⟨ext, hext⟩
            rw [hext, linkMembers_connect st i nm ms _ heq]
            exact List.mem_append_left ext
              (List.mem_append_right ms (List.mem_singleton.mpr rfl))
          · exact ih h e he1

theorem extendLink_lookup {st st' : LinkState} {i : Nat} {es : List ConnEntry}
    (h : extendLink st i es = some st') (k : String × String) :
    alLookup st'.ifaces k = alLookup st.ifaces k ∨
      alLookup st'.ifaces k = some (some i) := by
  induction es generalizing st with
  | nil =>
    rw [extendLink] at h
    cases h
    exact Or.inl rfl
  | cons e rest ih =>
    rw [extendLink] at h
    split at h
    · exact absurd h (by simp)
    · rename_i v hv
      split at h
      · exact absurd h (by simp)
      · split at h
        · exact ih h
        · rcases ih h with h1 | h1
          · by_cases hk : k = (e.dest_host, e.dest_port)
            · rw [h1, hk]
              show alLookup (alSet st.ifaces (e.dest_host, e.dest_port) (some i))
                    (e.dest_host, e.dest_port) = _ ∨
                  alLookup (alSet st.ifaces (e.dest_host, e.dest_port) (some i))
                    (e.dest_host, e.dest_port) = some (some i)
              rw [alLookup_alSet_self, hv]
              exact Or.inr rfl
            · rw [h1]
              exact Or.inl (alLookup_alSet_ne _ _ _ _ hk)
          · exact Or.inr h1

theorem extendLink_isSome {st st' : LinkState} {i : Nat} {es : List ConnEntry}
    (h : extendLink st i es = some st') (k : String × String) :
    (alLookup st'.ifaces k).isSome = (alLookup st.ifaces k).isSome := by
  induction es generalizing st with
  | nil =>
    rw [extendLink] at h
    cases h
    rfl
  | cons e rest ih =>
    rw [extendLink] at h
    split at h
    · exact absurd h (by simp)
    · split at h
      · exact absurd h (by simp)
      · split at h
        · exact ih h
        · rw [ih h, setIfaceLink_isSome]

theorem extendLink_entries_ok {st st' : LinkState} {i : Nat} {es : List ConnEntry}
    (h : extendLink st i es = some st') :
    ∀ e ∈ es, (alLookup st'.ifaces (e.dest_host, e.dest_port)).isSome = true := by
  induction es generalizing st with
  | nil => intro e he; simp at he
  | cons e0 rest ih =>
    intro e he
    rw [extendLink] at h
    split at h
    · exact absurd h (by simp)
    · rename_i v hv
      split at h
      · exact absurd h (by simp)
      · split at h
        · rcases List.mem_cons.mp he with he1 | he1
          · subst he1
            rw [extendLink_isSome h, hv]
            rfl
          · exact ih h e he1
        · rcases List.mem_cons.mp he with he1 | he1
          · subst he1
            rw [extendLink_isSome h, setIfaceLink_isSome]
            show (alLookup st.ifaces (e.dest_host, e.dest_port)).isSome = true
            rw [hv]
            rfl
          · exact ih h e he1

theorem extendLink_noop {st : LinkState} {i : Nat} {nm : String}
    {ms : List (String × String)} (heq : st.links[i]? = some (nm, ms))
    {es : List ConnEntry}
    (hall : ∀ e ∈ es,
        (alLookup st.ifaces (e.dest_host, e.dest_port)).isSome = true ∧
        (e.dest_host, e.dest_port) ∈ ms) :
    extendLink st i es = some st := by
  induction es with
  | nil => rfl
  | cons e rest ih =>
    obtain ⟨hsome, hmem⟩ := hall e (List.mem_cons_self e rest)
    rcases Option.isSome_iff_exists.mp hsome with ⟨v, hv⟩
    rw [extendLink, hv, heq]
    simp only [if_pos hmem]
    exact ih (fun e2 he2 => hall e2 (List.mem_cons_of_mem e he2))

/-- C2 counterexample: on a link-free three-device graph, a connection
dictionary in which two discovering devices both reference the remote
interface `B/Gi2` makes the commit create two links that both contain
`B/Gi2`: the create branch checks only the local interface for an existing
link, never the remote interfaces it pulls into the new link. -/
theorem write_connections_counterexample :
    ((write_connections cdC2 lsABC).map
        (fun st => (st.links.filter
          (fun l => decide (("B", "Gi2") ∈ l.2))).length)) = some 2 ∧
    ¬ (2 ≤ 1) := by
  decide

/-- C2 amended: the local interface of a committed connection key is never
placed into a second link: when it already belongs to a link, no new link is
created (the existing one is extended); a new link is created only when the
local interface is link-free, and then the local interface becomes a member
of exactly the one new link and its back-reference points there.  Remote
interfaces carry no such protection (see the counterexample). -/
theorem commitIface_local_links (st : LinkState) (device intfName : String)
    (entries : List ConnEntry) (st' : LinkState) :
    (∀ i, alLookup st.ifaces (device, intfName) = some (some i) →
        commitIface st device intfName entries = some st' →
        st'.links.length = st.links.length) ∧
    (alLookup st.ifaces (device, intfName) = some none →
        commitIface st device intfName entries = some st' →
        st'.links.length = st.links.length + 1 ∧
        alLookup st'.ifaces (device, intfName) = some (some st.links.length) ∧
        linkAtContains st' st.links.length (device, intfName)) := by
  constructor
  · intro i href hc
    unfold commitIface at hc
    rw [href] at hc
    exact extendLink_links_length hc
  · intro href hc
    unfold commitIface at hc
    rw [href] at hc
    cases hcol : collectIntList st [(device, intfName)] entries with
    | none =>
      rw [hcol] at hc
      simp at hc
    | some L =>
      rw [hcol] at hc
      have hx : ({ setLinksAll st L st.links.length with
          links := (setLinksAll st L st.links.length).links ++
            [("Link_" ++ toString st.links.length, L)] } : LinkState) = st' :=
        Option.some.inj hc
      have hdL : (device, intfName) ∈ L := by
        rcases collectIntList_prefix hcol with ⟨ext, hext⟩
        rw [hext]
        exact List.mem_append_left ext (List.mem_singleton.mpr rfl)
      have hlinks : st'.links =
          st.links ++ [("Link_" ++ toString st.links.length, L)] := by
        rw [← hx]
        show (setLinksAll st L st.links.length).links ++ _ = _
        rw [setLinksAll_links]
      have hifaces : st'.ifaces = (setLinksAll st L st.links.length).ifaces := by
        rw [← hx]
      refine ⟨?_, ?_, ?_⟩
      · rw [hlinks, List.length_append]
        rfl
      · rw [hifaces]
        exact setLinksAll_lookup_mem L st st.links.length (device, intfName) hdL
          (by rw [href]; rfl)
      · unfold linkAtContains
        rw [hlinks, listGetConcatLength]
        exact hdL

/-- Witness for the amended C2 at a concrete graph: committing `A/Gi1`
against `B/Gi2` on the link-free graph creates exactly one link containing
`A/Gi1` and points its back-reference there. -/
theorem commitIface_local_links_witness :
    commitIface lsABC "A" "Gi1" [{ dest_host := "B", dest_port := "Gi2" }]
        = some c2WitnessResult ∧
    (c2WitnessResult.links.length = lsABC.links.length + 1 ∧
     alLookup c2WitnessResult.ifaces ("A", "Gi1") = some (some lsABC.links.length) ∧
     linkAtContains c2WitnessResult lsABC.links.length ("A", "Gi1")) :=
  ⟨by decide,
   (commitIface_local_links lsABC "A" "Gi1"
      [{ dest_host := "B", dest_port := "Gi2" }] c2WitnessResult).2
     (by decide) (by decide)⟩

/-- C3 counterexample: committing `cdC3` once creates `Link_0 = [A/Gi1,
B/Gi2]` and `Link_1 = [C/Gi3, A/Gi1]`, stealing the back-reference of
`A/Gi1`; committing the identical dictionary a second time therefore extends
`Link_1` with `B/Gi2`, so the link memberships after two applications differ
from those after one. -/
theorem write_connections_idem_counterexample :
    ((write_connections cdC3 lsABC).map (fun st => st.links.map (fun l => l.2)))
      = some [[("A", "Gi1"), ("B", "Gi2")], [("C", "Gi3"), ("A", "Gi1")]] ∧
    (((write_connections cdC3 lsABC).bind (write_connections cdC3)).map
        (fun st => st.links.map (fun l => l.2)))
      = some [[("A", "Gi1"), ("B", "Gi2")],
              [("C", "Gi3"), ("A", "Gi1"), ("B", "Gi2")]] ∧
    ((write_connections cdC3 lsABC).bind (write_connections cdC3))
      ≠ write_connections cdC3 lsABC := by
  decide

theorem commitIface_idem {st st' : LinkState} {device intfName : String}
    {entries : List ConnEntry}
    (h : commitIface st device intfName entries = some st') :
    commitIface st' device intfName entries = some st' := by
  unfold commitIface at h ⊢
  cases href : alLookup st.ifaces (device, intfName) with
  | none =>
    rw [href] at h
    simp at h
  | some o =>
    rw [href] at h
    cases o with
    | none =>
      cases hcol : collectIntList st [(device, intfName)] entries with
      | none =>
        rw [hcol] at h
        simp at h
      | some L =>
        rw [hcol] at h
        have hx : ({ setLinksAll st L st.links.length with
            links := (setLinksAll st L st.links.length).links ++
              [("Link_" ++ toString st.links.length, L)] } : LinkState) = st' :=
          Option.some.inj h
        have hdL : (device, intfName) ∈ L := by
          rcases collectIntList_prefix hcol with ⟨ext, hext⟩
          rw [hext]
          exact List.mem_append_left ext (List.mem_singleton.mpr rfl)
        have hmem : ∀ e ∈ entries, (e.dest_host, e.dest_port) ∈ L :=
          collectIntList_mem_entry hcol
        have hsome : ∀ e ∈ entries,
            (alLookup st.ifaces (e.dest_host, e.dest_port)).isSome = true :=
          collectIntList_isSome hcol
        have hlinks : st'.links =
            st.links ++ [("Link_" ++ toString st.links.length, L)] := by
          rw [← hx]
          show (setLinksAll st L st.links.length).links ++ _ = _
          rw [setLinksAll_links]
        have hifaces : st'.ifaces = (setLinksAll st L st.links.length).ifaces := by
          rw [← hx]
        have hlook : alLookup st'.ifaces (device, intfName)
            = some (some st.links.length) := by
          rw [hifaces]
          exact setLinksAll_lookup_mem L st st.links.length (device, intfName) hdL
            (by rw [href]; rfl)
        rw [hlook]
        show extendLink st' st.links.length entries = some st'
        have hlinkAt : st'.links[st.links.length]?
            = some ("Link_" ++ toString st.links.length, L) := by
          rw [hlinks]
          exact listGetConcatLength st.links _
        refine extendLink_noop hlinkAt ?_
        intro e he
        refine ⟨?_, hmem e he⟩
        rw [hifaces, setLinksAll_isSome]
        exact hsome e he
    | some l =>
      have hext : extendLink st l entries = some st' := h
      have hlook : alLookup st'.ifaces (device, intfName) = some (some l) := by
        rcases extendLink_lookup hext (device, intfName) with h1 | h1
        · rw [h1, href]
        · exact h1
      rw [hlook]
      show extendLink st' l entries = some st'
      cases entries with
      | nil =>
        have hst : st = st' := Option.some.inj hext
        rw [← hst]
        rfl
      | cons e rest =>
        have hext0 := hext
        rw [extendLink] at hext
        cases hw : alLookup st.ifaces (e.dest_host, e.dest_port) with
        | none =>
          rw [hw] at hext
          simp at hext
        | some w =>
          rw [hw] at hext
          cases hL : st.links[l]? with
          | none =>
            rw [hL] at hext
            simp at hext
          | some p =>
            have hlen : st'.links.length = st.links.length :=
              extendLink_links_length hext0
            have hlt : l < st'.links.length := by
              rw [hlen]
              exact listGetSome_lt hL
            have hq : st'.links[l]? = some st'.links[l] :=
              List.getElem?_eq_getElem hlt
            have hmemAll : ∀ e2 ∈ (e :: rest),
                (e2.dest_host, e2.dest_port) ∈ linkMembers st' l :=
              extendLink_mem hext0
            have hpres : ∀ e2 ∈ (e :: rest),
                (alLookup st'.ifaces (e2.dest_host, e2.dest_port)).isSome = true :=
              extendLink_entries_ok hext0
            have hq2 : st'.links[l]? = some (st'.links[l].1, st'.links[l].2) := by
              rw [hq]
            refine extendLink_noop hq2 ?_
            intro e2 he2
            refine ⟨hpres e2 he2, ?_⟩
            have := hmemAll e2 he2
            rwa [linkMembers_eq hq2] at this

/-- C3 amended: link commit is idempotent for a connection dictionary with a
single discovering device and a single local interface: a second application
of the same record leaves the state unchanged.  For dictionaries with
several keys the property fails, because a later create step can steal the
link back-reference of an earlier local interface (see the counterexample). -/
theorem write_connections_single_idem (st st' : LinkState)
    (device intfName : String) (entries : List ConnEntry)
    (h : write_connections [(device, [(intfName, entries)])] st = some st') :
    write_connections [(device, [(intfName, entries)])] st' = some st' := by
  have key : commitIface st device intfName entries = some st' := by
    cases hc : commitIface st device intfName entries with
    | none =>
      rw [write_connections, commitDevice, hc] at h
      simp at h
    | some s1 =>
      rw [write_connections, commitDevice, hc] at h
      simp only [commitDevice] at h
      rw [write_connections] at h
      simp at h
      rw [h]
  have hidem := commitIface_idem key
  rw [write_connections, commitDevice, hidem]
  simp only [commitDevice]
  rw [write_connections]

/-- Witness for the amended C3: the single-interface commit of `A/Gi1`
against `B/Gi2` reapplied to its own result is a no-op. -/
theorem write_connections_single_idem_witness :
    write_connections [("A", [("Gi1", [{ dest_host := "B", dest_port := "Gi2" }])])]
        c2WitnessResult = some c2WitnessResult :=
  write_connections_single_idem lsABC c2WitnessResult "A" "Gi1"
    [{ dest_host := "B", dest_port := "Gi2" }] (by decide)

/-- C1: in links-only mode, an LLDP neighbor whose raw name is a testbed
device but whose normalized name is not makes the round add a brand-new
device: the links-only membership check of the LLDP branch runs on the raw
neighbor key before normalization, while the device is recorded and
instantiated under the normalized name. -/
theorem lldp_only_links_code_bug :
    ¬ ("n77-1" ∈ c1Tb.devices.map (fun d => d.name)) ∧
    c1Cfg.only_links = true ∧
    ((exceptOk (lldp_round c1Cfg [] (fun _ => []) c1Tb "srcdev" c1Lldp)).map
        (fun tb => (tb.devices.map (fun d => d.name)).contains "n77-1"))
      = some true := by
  decide

/-- C10 counterexample: the record `Y` has an empty management-address set
and a non-empty finder set, yet processing the two-record list succeeds
without an error, and the `finder_proxy` connection of the new device `Y`
silently reuses `9.9.9.9`: the Python loop variable `ip` keeps the binding
it received while processing the earlier record `X`. -/
theorem write_devices_stale_ip_counterexample :
    c10RecY.ip = [] ∧ c10RecY.finder.2 ≠ [] ∧
    ((exceptOk (write_devices cfgDefault [] (fun _ => [])
        [("X", c10RecX), ("Y", c10RecY)] c10Tb)).map
      (fun res => finderProxyIp res.2 "Y")) = some (some (some "9.9.9.9")) := by
  decide

/-! ## Device instantiation lemmas -/

theorem write_proxy_chain_isSome {tb : MTestbed} {f : String} {fd : MDevice}
    (h : tbLookup tb f = some fd) (user ip : String) :
    (write_proxy_chain tb f user ip).isSome = true := by
  unfold write_proxy_chain
  rw [h]
  rfl

theorem buildNewConns_snd (ps : List String) (ips : List (Option String))
    (cs : List (String × MConn)) (b : Option (Option String)) :
    (buildNewConns ps ips cs b).2 = ips.foldl (fun _ v => some v) b := by
  induction ips generalizing cs b with
  | nil => rfl
  | cons v vs ih =>
    show (buildNewConns ps vs _ (some v)).2 = vs.foldl _ (some v)
    exact ih _ _

theorem getLast_of_ne_nil {α : Type} {l : List α} (h : l ≠ []) :
    ∃ v, l.getLast? = some v := by
  induction l with
  | nil => exact absurd rfl h
  | cons x xs ih =>
    cases xs with
    | nil => exact ⟨x, rfl⟩
    | cons y ys =>
      rcases ih (by simp) with ⟨v, hv⟩
      rw [List.getLast?_cons_cons]
      exact ⟨v, hv⟩

theorem foldl_lastBind (ips : List (Option String)) (b : Option (Option String)) :
    ips.foldl (fun _ v => some v) b =
      match ips.getLast? with
      | none => b
      | some v => some v := by
  induction ips generalizing b with
  | nil => rfl
  | cons v vs ih =>
    show vs.foldl _ (some v) = _
    rw [ih (some v)]
    cases vs with
    | nil => rfl
    | cons w ws =>
      rw [List.getLast?_cons_cons]
      rcases getLast_of_ne_nil (l := w :: ws) (by simp) with ⟨u, hu⟩
      rw [hu]

theorem alLookup_alUpsert_self {κ β : Type} [DecidableEq κ]
    (l : List (κ × β)) (k : κ) (v : β) :
    alLookup (alUpsert l k v) k = some v := by
  unfold alUpsert
  by_cases h : (alLookup l k).isSome = true
  · rw [if_pos h, alLookup_alSet_self]
    rcases Option.isSome_iff_exists.mp h with ⟨w, hwp⟩
    rw [hwp]
    rfl
  · rw [if_neg h, alLookup_append_right (Option.not_isSome_iff_eq_none.mp h),
      alLookup, if_pos rfl]

/-- C10 amended: for a new device record with an empty management-address
set and a non-empty finder set, the undefined-variable error is raised
exactly when no address was bound earlier in the same call: with the `ip`
binding empty the write fails with the `NameError`, but with a stale binding
from an earlier record the finder-proxy connection silently reuses that
address; and whenever the record has addresses, the finder-proxy ip is the
last address the loop processed. -/
theorem write_one_finder_ip (proxy_set : List String)
    (describe : String → List String) (cfg : Config) (tb : MTestbed)
    (devs : List MDevice) (name : String) (r : DevRec) :
    ((tbLookup tb name).isNone = true →
      (tbLookup tb r.finder.1).isSome = true →
      r.ip = [] → r.finder.2 ≠ [] →
      write_one proxy_set describe cfg tb devs none (name, r)
        = .error "NameError: name ip is not defined") ∧
    (∀ a out, (tbLookup tb name).isNone = true →
      r.ip = [] → r.finder.2 ≠ [] →
      write_one proxy_set describe cfg tb devs (some a) (name, r) = .ok out →
      lastDevFinderIp out = some a) ∧
    (∀ out ipBind, (tbLookup tb name).isNone = true →
      r.ip ≠ [] → r.finder.2 ≠ [] →
      write_one proxy_set describe cfg tb devs ipBind (name, r) = .ok out →
      lastDevFinderIp out = r.ip.getLast?) := by
  refine ⟨?_, ?_, ?_⟩
  · intro h1 h2 h3 h4
    rcases Option.isSome_iff_exists.mp h2 with ⟨fd, hfd⟩
    have h4' : r.finder.2.isEmpty = false := by
      cases hf2 : r.finder.2 with
      | nil => exact absurd hf2 h4
      | cons a l => rfl
    rcases Option.isSome_iff_exists.mp
        (write_proxy_chain_isSome hfd fd.credentials (fmtAddrSet r.finder.2))
      with ⟨pv, hpv⟩
    simp [write_one, h1, hfd, h3, h4', hpv, buildNewConns]
  · intro a out h1 h3 h4 hw
    cases hfd : tbLookup tb r.finder.1 with
    | none => simp [write_one, h1, hfd] at hw
    | some fd =>
      have h4' : r.finder.2.isEmpty = false := by
        cases hf2 : r.finder.2 with
        | nil => exact absurd hf2 h4
        | cons a2 l => rfl
      rcases Option.isSome_iff_exists.mp
          (write_proxy_chain_isSome hfd fd.credentials (fmtAddrSet r.finder.2))
        with ⟨pv, hpv⟩
      simp only [write_one, h1, hfd, h3, h4', hpv, buildNewConns,
        List.foldl_nil, if_true, Bool.false_eq_true, if_false] at hw
      cases hmk : mkPortIfaces r.ports with
      | error e =>
        simp only [finishNewDevice, hmk] at hw
        exact Except.noConfusion hw
      | ok ifs =>
        simp only [finishNewDevice, hmk] at hw
        injection hw with hw2
        subst hw2
        unfold lastDevFinderIp
        rw [List.getLast?_concat]
        simp [alLookup_alUpsert_self]
  · intro out ipBind h1 h3 h4 hw
    rcases getLast_of_ne_nil h3 with ⟨v, hv⟩
    cases hfd : tbLookup tb r.finder.1 with
    | none => simp [write_one, h1, hfd] at hw
    | some fd =>
      have h4' : r.finder.2.isEmpty = false := by
        cases hf2 : r.finder.2 with
        | nil => exact absurd hf2 h4
        | cons a2 l => rfl
      rcases Option.isSome_iff_exists.mp
          (write_proxy_chain_isSome hfd fd.credentials (fmtAddrSet r.finder.2))
        with ⟨pv, hpv⟩
      have hb2 : (buildNewConns proxy_set r.ip [] ipBind).2 = some v := by
        rw [buildNewConns_snd, foldl_lastBind, hv]
      simp only [write_one, h1, hfd, h4', hpv, hb2, if_true,
        Bool.false_eq_true, if_false] at hw
      cases hmk : mkPortIfaces r.ports with
      | error e =>
        simp only [finishNewDevice, hmk] at hw
        exact Except.noConfusion hw
      | ok ifs =>
        simp only [finishNewDevice, hmk] at hw
        injection hw with hw2
        subst hw2
        unfold lastDevFinderIp
        rw [List.getLast?_concat, hv]
        simp [alLookup_alUpsert_self]

/-- Witness for the amended C10: with no prior binding, instantiating the
record `Y` alone raises the undefined-variable error. -/
theorem write_one_finder_ip_witness :
    write_one [] (fun _ => []) cfgDefault c10Tb [] none ("Y", c10RecY)
      = .error "NameError: name ip is not defined" :=
  (write_one_finder_ip [] (fun _ => []) cfgDefault c10Tb [] "Y" c10RecY).1
    (by decide) (by decide) (by decide) (by decide)
